import Mathlib

/-!
Verification of the `anchor_experiment` pinning crate (pin-api).

Two complementary shallow embeddings are used.

The first is a syntactic model of the crate's trait-impl set over a small
universe `RTy` of Rust types.  Each clause of the `Bool`-valued predicates
below transcribes one `impl` header from `src/lib.rs`, `src/heap.rs` or
`src/mem.rs`; this model settles the compile-time availability claims
(which operations are reachable from safe code, and under which capability
bounds).

The second is a value/heap model of the data structures and operations:
the heap is an explicit list of cells, a box is an address into it, and
mutation is state passing.  Addresses are observable, so claims about
address stability under moves can be stated.
-/

namespace PinApi

/-- Universe of Rust types relevant to the crate's impl set.  `selfRefT`
stands for a user type that explicitly opts out of the `MovePinned` auto
trait (a self-referential type); every other base type keeps the
auto-derived default. -/
inductive RTy : Type
  | i32
  | strT
  | sliceT (t : RTy)
  | osStrT
  | cStrT
  | pathT
  | refT (t : RTy)
  | mutRefT (t : RTy)
  | boxT (t : RTy)
  | vecT (t : RTy)
  | stringT
  | osStringT
  | cStringT
  | pathBufT
  | rcT (t : RTy)
  | arcT (t : RTy)
  | pinT (t : RTy)
  | pinMutT (t : RTy)
  | pinBoxT (t : RTy)
  | anchorT (p : RTy)
  | stackPinnedT (t : RTy)
  | selfRefT
  deriving DecidableEq

/-- Whether the type is `Sized` in Rust.  The unsized types in this universe
are the slice/str-like targets of the owning buffers. -/
def sized : RTy → Bool
  | .strT | .sliceT _ | .osStrT | .cStrT | .pathT => false
  | _ => true

/-- The crate's `Own` impls, transcribed from the `impls!` block in
`src/lib.rs`: `Box<T>`, `Vec<T>`, `String`, `OsString`, `CString`,
`PathBuf`. -/
def own : RTy → Bool
  | .boxT _ | .vecT _ | .stringT | .osStringT | .cStringT | .pathBufT => true
  | _ => false

/-- The crate's `StableDeref` impls, transcribed from the `impls!` block in
`src/lib.rs` (the list in `src/mem.rs` is the same): both reference types,
`Box<T>`, `Vec<T>`, the four owning string/path buffers, `Rc<T>` and
`Arc<T>`. -/
def stableDeref : RTy → Bool
  | .refT _ | .mutRefT _ | .boxT _ | .vecT _
  | .stringT | .osStringT | .cStringT | .pathBufT
  | .rcT _ | .arcT _ => true
  | _ => false

/-- The crate's `StableDerefMut` impls, transcribed from the `impls!` block
in `src/lib.rs`: only `&mut T`, `Box<T>` and `Vec<T>`.  (`src/mem.rs` lists
only `Box<T>` and `Vec<T>`, agreeing that the string/path buffers and the
reference-counted owners do not get the mutable variant.) -/
def stableDerefMut : RTy → Bool
  | .mutRefT _ | .boxT _ | .vecT _ => true
  | _ => false

/-- The `MovePinned` auto trait.  Explicit impls from the source:
the `impls!` block gives it unconditionally to `&T`, `&mut T`, `Box<T>`,
`Vec<T>`, `Rc<T>`, `Arc<T>`; `src/heap.rs` gives it to `PinBox<T>` via
`unsafe impl<T> MovePinned for PinBox<T>`, whose `<T>` carries the
implicit `T: Sized` bound — and since an explicit impl of an auto trait
suppresses the automatic structural derivation for the whole type
constructor, `PinBox` of an unsized referent is not `MovePinned`;
`src/lib.rs` gives it to `Anchor<T>` only under
`T: StableDeref + Own + MovePinned`.  `selfRefT` opts out.  All remaining
types follow the auto-trait default derivation through their fields
(`Pin`/`PinMut` hold a reference, `StackPinned` holds a `T` and a
`PhantomData`). -/
def movePinned : RTy → Bool
  | .selfRefT => false
  | .refT _ | .mutRefT _ => true
  | .boxT _ | .vecT _ => true
  | .rcT _ | .arcT _ => true
  | .pinBoxT t => sized t
  | .anchorT p => stableDeref p && own p && movePinned p
  | .sliceT t => movePinned t
  | .pinT _ | .pinMutT _ => true
  | .stackPinnedT t => movePinned t
  | _ => true

/-- `Deref::Target` for the pointer-like types of the universe, transcribed
from the corresponding `Deref` impls (`Vec<T>` targets `[T]`, `String`
targets `str`, and so on; `Anchor<P>` forwards to `P`'s target). -/
def target : RTy → Option RTy
  | .refT t | .mutRefT t | .boxT t | .rcT t | .arcT t => some t
  | .vecT t => some (.sliceT t)
  | .stringT => some .strT
  | .osStringT => some .osStrT
  | .cStringT => some .cStrT
  | .pathBufT => some .pathT
  | .pinT t | .pinMutT t | .pinBoxT t => some t
  | .anchorT p => target p
  | _ => none

/-- The crate's own `Deref` impls, transcribed from their headers:
`impl Deref for Pin` has an implicit `T: Sized` bound (the source
writes `impl<'a, T> Deref for Pin<'a, T>`, with no `?Sized`);
`impl Deref for PinMut` and `impl Deref for PinBox` are `T: ?Sized`;
`impl Deref for Anchor<T>` requires `T: Own + StableDeref`. -/
def crateDeref : RTy → Bool
  | .pinT t => sized t
  | .pinMutT _ => true
  | .pinBoxT _ => true
  | .anchorT p => own p && stableDeref p
  | _ => false

/-- The crate's own `DerefMut` impls, transcribed from their headers:
`impl DerefMut for PinMut` requires `T: MovePinned`; `impl DerefMut for
PinBox` requires `T: MovePinned`; `impl DerefMut for Anchor<T>` requires
`T: Own + StableDerefMut` with `T::Target: MovePinned`. -/
def crateDerefMut : RTy → Bool
  | .pinMutT t => movePinned t
  | .pinBoxT t => movePinned t
  | .anchorT p =>
      own p && stableDerefMut p &&
        (match target p with
         | some t => movePinned t
         | none => false)
  | _ => false

/-- Availability of `PinBox::<T>::into_inner`: declared in
`impl<T: MovePinned> PinBox<T>`, so it exists exactly for `Sized` types
with `MovePinned` (the source's `<T>` carries the implicit `Sized`
bound, as the method returns `T` by value). -/
def pinBoxIntoInnerAvail (t : RTy) : Bool := movePinned t && sized t

/-- Availability of `PinBox::<T>::into_box`: declared in
`impl<T: MovePinned + ?Sized> PinBox<T>`. -/
def pinBoxIntoBoxAvail (t : RTy) : Bool := movePinned t

/-- Availability of the unsafe escape `PinBox::<T>::into_inner_unchecked`:
declared in `impl<T> PinBox<T>` with no `MovePinned` bound. -/
def pinBoxIntoInnerUncheckedAvail (t : RTy) : Bool := sized t

/-- Availability of the unsafe escape `PinBox::<T>::into_box_unchecked`:
declared in `impl<T: ?Sized> PinBox<T>` with no `MovePinned` bound. -/
def pinBoxIntoBoxUncheckedAvail (_ : RTy) : Bool := true

/-- Availability of the unsafe escape `PinMut::get_mut`: declared in
`impl<'a, T: ?Sized> PinMut<'a, T>` with no `MovePinned` bound. -/
def pinMutGetMutAvail (_ : RTy) : Bool := true

/-- The heap: a list of cells, an address being an index into it.  Rust only
hands out addresses of live allocations, so a box address produced by the
model's allocator is always in bounds. -/
abbrev Heap (α : Type) := List α

/-- A `Box<T>`: an owning heap pointer, modelled as the address of its
allocation. -/
structure Box (α : Type) : Type where
  addr : Nat
  deriving DecidableEq

/-- `Box::new`: allocate a fresh cell holding `v` and return its address. -/
def Box.new (h : Heap α) (v : α) : Heap α × Box α :=
  (h ++ [v], ⟨h.length⟩)

/-- Immutable dereference of a box: read the cell at its address. -/
def Box.deref (h : Heap α) (b : Box α) : Option α :=
  h[b.addr]?

/-- A stack-pinned slot, from `src/lib.rs`: wraps the value (the lifetime
marker `PhantomData` is compile-time only and has no runtime content). -/
structure StackPinned (α : Type) : Type where
  data : α
  deriving DecidableEq

/-- The `pinned` constructor from `src/lib.rs`: place `data` in a stack
slot. -/
def pinned (data : α) : StackPinned α :=
  ⟨data⟩

/-- A pinned reference `Pin<'a, T>`.  Its single field is `inner : &'a T`;
a shared reference is modelled by the value it points at. -/
structure Pin (α : Type) : Type where
  inner : α
  deriving DecidableEq

/-- `Pin::new`: borrow the data out of a stack-pinned slot
(`Pin { inner: &ptr.data }`). -/
def Pin.new (ptr : StackPinned α) : Pin α :=
  ⟨ptr.data⟩

/-- `impl Deref for Pin`: return the inner reference. -/
def Pin.deref (p : Pin α) : α :=
  p.inner

/-- `Pin::as_ref`: reborrow with a shorter lifetime
(`Pin { inner: self.inner }`). -/
def Pin.as_ref (p : Pin α) : Pin α :=
  ⟨p.inner⟩

/-- A pinned mutable reference `PinMut<'a, T>`, value-level view: the
`inner : &'a mut T` field is modelled by the referent's current value.
(The address-level view, used for mutation through an anchor, is
`PinMutH` below.) -/
structure PinMut (α : Type) : Type where
  inner : α
  deriving DecidableEq

/-- `PinMut::new`: borrow the data out of a stack-pinned slot mutably
(`PinMut { inner: &mut ptr.data }`). -/
def PinMut.new (ptr : StackPinned α) : PinMut α :=
  ⟨ptr.data⟩

/-- `impl Deref for PinMut`: return the inner reference. -/
def PinMut.deref (p : PinMut α) : α :=
  p.inner

/-- `PinMut::as_ref`: downgrade to a shorter-lived `Pin`
(`Pin { inner: self.inner }`). -/
def PinMut.as_ref (p : PinMut α) : Pin α :=
  ⟨p.inner⟩

/-- `PinMut::as_mut`: reborrow as a shorter-lived `PinMut`
(`PinMut { inner: self.inner }`). -/
def PinMut.as_mut (p : PinMut α) : PinMut α :=
  ⟨p.inner⟩

/-- The unsafe escape `PinMut::get_mut`: hand out the raw inner mutable
reference. -/
def PinMut.get_mut (p : PinMut α) : α :=
  p.inner

/-- An `Anchor<P>` at the pointer instance the claims exercise,
`P = Box<T>` (`Own + StableDeref + StableDerefMut`): it owns the box
pointer value.  Moving an `Anchor` value moves this struct — one address
word — and nothing on the heap. -/
structure Anchor (α : Type) : Type where
  ptr : Box α
  deriving DecidableEq

/-- `Anchor::new`: take ownership of the pointer. -/
def Anchor.new (p : Box α) : Anchor α :=
  ⟨p⟩

/-- `Anchor::boxed` (the `AnchoredBox` constructor):
`Anchor::new(Box::new(data))`. -/
def Anchor.boxed (h : Heap α) (data : α) : Heap α × Anchor α :=
  let hb := Box.new h data
  (hb.1, Anchor.new hb.2)

/-- `impl Deref for Anchor`: `&*self.ptr`, i.e. read the box's target. -/
def Anchor.deref (h : Heap α) (a : Anchor α) : Option α :=
  Box.deref h a.ptr

/-- The address of the anchor's heap-resident target (what the unsafe
introspection escape would observe in a test harness). -/
def Anchor.targetAddr (a : Anchor α) : Nat :=
  a.ptr.addr

/-- `Anchor::as_pin` / `Pin::anchored`: `Pin { inner: &*anchor.ptr }` —
a pinned reference to the target. -/
def Anchor.as_pin (h : Heap α) (a : Anchor α) : Option (Pin α) :=
  (Anchor.deref h a).map Pin.mk

/-- Address-level view of `PinMut<'a, T>` for a heap-resident referent, as
produced by `Anchor::as_pin_mut` / `PinMut::anchored`: the `&'a mut T`
field is modelled by the referent's heap address. -/
structure PinMutH (α : Type) : Type where
  addr : Nat
  deriving DecidableEq

/-- `Anchor::as_pin_mut` / `PinMut::anchored`:
`PinMut { inner: &mut *anchor.ptr }` — a pinned mutable reference to the
anchor's target. -/
def Anchor.as_pin_mut (a : Anchor α) : PinMutH α :=
  ⟨a.ptr.addr⟩

/-- Immutable dereference of the address-level pinned mutable reference. -/
def PinMutH.deref (h : Heap α) (p : PinMutH α) : Option α :=
  h[p.addr]?

/-- `DerefMut` for `PinMut` followed by an in-place update of the referent:
a field assignment `pm.field = x` is `modify` with the record update. -/
def PinMutH.modify (h : Heap α) (p : PinMutH α) (f : α → α) : Heap α :=
  match h[p.addr]? with
  | some v => h.set p.addr (f v)
  | none => h

/-- Reduction of `PinMutH.modify` when the referent is present: the cell is
set to the updated value. -/
theorem PinMutH.modify_found {α : Type} (h : Heap α) (p : PinMutH α)
    (f : α → α) (w : α) (hw : h[p.addr]? = some w) :
    PinMutH.modify h p f = h.set p.addr (f w) := by
  unfold PinMutH.modify
  rw [hw]

/-- A `PinBox<T>` from `src/heap.rs`: a box that pins its contents. -/
structure PinBox (α : Type) : Type where
  inner : Box α
  deriving DecidableEq

/-- `PinBox::new`: `PinBox { inner: Box::new(data) }`. -/
def PinBox.new (h : Heap α) (data : α) : Heap α × PinBox α :=
  let hb := Box.new h data
  (hb.1, ⟨hb.2⟩)

/-- `PinBox::into_inner` (gated on `T: MovePinned` at compile time; the
runtime behaviour, shared with `into_inner_unchecked`, is `*self.inner`). -/
def PinBox.into_inner (h : Heap α) (p : PinBox α) : Option α :=
  Box.deref h p.inner

/-- `PinBox::into_box` (gated on `T: MovePinned` at compile time; the
runtime behaviour, shared with `into_box_unchecked`, is `self.inner`). -/
def PinBox.into_box (p : PinBox α) : Box α :=
  p.inner

/-- `impl Deref for PinBox`: `&*self.inner`. -/
def PinBox.deref (h : Heap α) (p : PinBox α) : Option α :=
  Box.deref h p.inner

/-- The record `{a, b}` of the spec's anchored-mutation scenario. -/
structure Pair : Type where
  a : Nat
  b : Nat
  deriving DecidableEq

/-- Field assignment `r.a = x`. -/
def Pair.setA (r : Pair) (x : Nat) : Pair :=
  { r with a := x }

/-- A program state for observing Rust moves of anchor values: the heap
plus a bank of stack slots, each either holding an `Anchor` or vacated. -/
structure MoveState (α : Type) : Type where
  heap : Heap α
  slots : List (Option (Anchor α))

/-- Move the anchor value from slot `src` to slot `dst`.  A Rust move
copies the struct — here just the pointer word inside the anchor — into
the destination and vacates the source; the heap is untouched. -/
def moveAnchor (s : MoveState α) (src dst : Nat) : MoveState α :=
  { heap := s.heap
    slots := (s.slots.set dst ((s.slots[src]?).join)).set src none }

/-- The target address observed through the anchor sitting in slot `i`. -/
def MoveState.targetAddrAt (s : MoveState α) (i : Nat) : Option Nat :=
  ((s.slots[i]?).join).map Anchor.targetAddr

/-- The target value observed through the anchor sitting in slot `i`. -/
def MoveState.targetValueAt (s : MoveState α) (i : Nat) : Option α :=
  ((s.slots[i]?).join).bind (Anchor.deref s.heap)

/-- A concrete one-cell example state for the move experiment: the heap
holds `7`, slot 0 holds an anchor to it, slot 1 is vacant. -/
def exMoveState : MoveState Nat :=
  ⟨[7], [some (Anchor.new ⟨0⟩), none]⟩

/-- The anchor sitting in slot 0 of `exMoveState`. -/
def exAnchor : Anchor Nat :=
  Anchor.new ⟨0⟩

/-- C1: safe mutable or owned access out of a pinned reference exists
exactly when the referent type carries `MovePinned`: `DerefMut` on
`PinMut<T>` is gated exactly on `T: MovePinned`, `PinBox::into_inner` /
`into_box` are available exactly under `T: MovePinned`, and for a type
without `MovePinned` every safe mutable/owned path is closed while the
unsafe escapes (`PinMut::get_mut`, the unchecked extractions) remain. -/
theorem c1_safe_access_gated_on_movePinned (t : RTy) :
    crateDerefMut (RTy.pinMutT t) = movePinned t ∧
    (sized t = true → pinBoxIntoInnerAvail t = movePinned t) ∧
    pinBoxIntoBoxAvail t = movePinned t ∧
    (movePinned t = false →
      crateDerefMut (RTy.pinMutT t) = false ∧
      pinBoxIntoInnerAvail t = false ∧
      pinBoxIntoBoxAvail t = false ∧
      pinMutGetMutAvail t = true ∧
      pinBoxIntoBoxUncheckedAvail t = true) := by
  refine ⟨rfl, ?_, rfl, ?_⟩
  · intro hs
    simp [pinBoxIntoInnerAvail, hs]
  · intro hm
    refine ⟨hm, ?_, hm, rfl, rfl⟩
    simp [pinBoxIntoInnerAvail, hm]

/-- Witness for C1 at the opt-out type `selfRefT` (and, for the positive
gate, at `i32`). -/
theorem c1_safe_access_gated_on_movePinned_witness :
    crateDerefMut (RTy.pinMutT RTy.selfRefT) = false ∧
    pinBoxIntoInnerAvail RTy.selfRefT = false ∧
    pinMutGetMutAvail RTy.selfRefT = true ∧
    pinBoxIntoInnerAvail RTy.i32 = movePinned RTy.i32 :=
  ⟨((c1_safe_access_gated_on_movePinned RTy.selfRefT).2.2.2 (by decide)).1,
   ((c1_safe_access_gated_on_movePinned RTy.selfRefT).2.2.2 (by decide)).2.1,
   ((c1_safe_access_gated_on_movePinned RTy.selfRefT).2.2.2 (by decide)).2.2.2.1,
   (c1_safe_access_gated_on_movePinned RTy.i32).2.1 (by decide)⟩

/-- C2: moving an anchor value between stack slots relocates only the
pointer value: the moved-to slot observes the same target address and the
same target value as the source slot did before the move, and the heap is
untouched. -/
theorem c2_move_preserves_target_address {α : Type} (s : MoveState α)
    (src dst : Nat) (a : Anchor α)
    (hsrc : s.slots[src]? = some (some a)) (hdst : dst < s.slots.length)
    (hne : src ≠ dst) :
    (moveAnchor s src dst).targetAddrAt dst = some a.targetAddr ∧
    s.targetAddrAt src = some a.targetAddr ∧
    (moveAnchor s src dst).targetValueAt dst = s.targetValueAt src ∧
    (moveAnchor s src dst).heap = s.heap := by
  have hj : (s.slots[src]?).join = some a := by
    rw [hsrc]
    rfl
  have hget :
      ((s.slots.set dst ((s.slots[src]?).join)).set src none)[dst]? = some (some a) := by
    rw [List.getElem?_set_ne hne, hj, List.getElem?_set_eq_of_lt (some a) hdst]
  refine ⟨?_, ?_, ?_, rfl⟩
  · show (((((s.slots.set dst ((s.slots[src]?).join)).set src none))[dst]?).join).map
        Anchor.targetAddr = some a.targetAddr
    rw [hget]
    rfl
  · show ((s.slots[src]?).join).map Anchor.targetAddr = some a.targetAddr
    rw [hj]
    rfl
  · show (((((s.slots.set dst ((s.slots[src]?).join)).set src none))[dst]?).join).bind
        (Anchor.deref s.heap) = ((s.slots[src]?).join).bind (Anchor.deref s.heap)
    rw [hget, hj]
    rfl

/-- Witness for C2 on the concrete state `exMoveState`, moving the anchor
from slot 0 to slot 1. -/
theorem c2_move_preserves_target_address_witness :
    (moveAnchor exMoveState 0 1).targetAddrAt 1 = some exAnchor.targetAddr ∧
    exMoveState.targetAddrAt 0 = some exAnchor.targetAddr ∧
    (moveAnchor exMoveState 0 1).targetValueAt 1 = exMoveState.targetValueAt 0 ∧
    (moveAnchor exMoveState 0 1).heap = exMoveState.heap :=
  c2_move_preserves_target_address exMoveState 0 1 exAnchor
    (by decide) (by decide) (by decide)

/-- C3: pinning a value on the stack with `pinned`, deriving a pinned
(mutable) reference with `Pin::new` / `PinMut::new`, and dereferencing
yields exactly the pinned value (in particular for `42`). -/
theorem c3_stack_pin_deref_roundtrip {α : Type} (v : α) :
    (Pin.new (pinned v)).deref = v ∧ (PinMut.new (pinned v)).deref = v :=
  ⟨rfl, rfl⟩

/-- C4: anchoring the heap-boxed record `{a, b}`, taking a pinned mutable
reference with `as_pin_mut`, and assigning field `a` makes the new value
visible through the anchor's `Deref` while field `b` is unchanged. -/
theorem c4_anchored_field_update (h : Heap Pair) (r : Pair) (x : Nat) :
    Anchor.deref
        (PinMutH.modify (Anchor.boxed h r).1
          (Anchor.as_pin_mut (Anchor.boxed h r).2) (fun s => s.setA x))
        (Anchor.boxed h r).2
      = some ⟨x, r.b⟩ := by
  have h1 : (h ++ [r])[h.length]? = some r := List.getElem?_concat_length h r
  have h2 : h.length < (h ++ [r]).length := by
    simp
  have hmod :
      PinMutH.modify (h ++ [r]) (Anchor.as_pin_mut (Anchor.new ⟨h.length⟩))
          (fun s => s.setA x)
        = (h ++ [r]).set h.length (r.setA x) :=
    PinMutH.modify_found (h ++ [r]) (Anchor.as_pin_mut (Anchor.new ⟨h.length⟩))
      (fun s => s.setA x) r h1
  show Anchor.deref
      (PinMutH.modify (h ++ [r]) (Anchor.as_pin_mut (Anchor.new ⟨h.length⟩))
        (fun s => s.setA x))
      (Anchor.new ⟨h.length⟩) = some ⟨x, r.b⟩
  rw [hmod]
  show ((h ++ [r]).set h.length (r.setA x))[h.length]? = some ⟨x, r.b⟩
  rw [List.getElem?_set_eq_of_lt (r.setA x) h2]
  rfl

/-- C5 counterexample: the claim asserts immutable dereference for every
referent type, sized or unsized, but the crate's `impl Deref for Pin`
carries the implicit `T: Sized` bound, so `Pin<str>` has no `Deref`. -/
theorem c5_counterexample_pin_str_no_deref :
    crateDeref (RTy.pinT RTy.strT) = false :=
  rfl

/-- C5 (amended): immutable dereference through `PinMut` is available for
every referent type with no precondition; through `Pin` it is available
for every sized referent type; in both cases it returns the pinned value
unchanged and requires no `MovePinned` capability. -/
theorem c5_deref_unconditional {α : Type} (t : RTy) (v : α) :
    crateDeref (RTy.pinMutT t) = true ∧
    (sized t = true → crateDeref (RTy.pinT t) = true) ∧
    Pin.deref (Pin.mk v) = v ∧
    PinMut.deref (PinMut.mk v) = v :=
  ⟨rfl, fun hs => hs, rfl, rfl⟩

/-- Witness for C5 at `i32` and the value `42`, including the opt-out type
`selfRefT` to show no `MovePinned` precondition is involved. -/
theorem c5_deref_unconditional_witness :
    crateDeref (RTy.pinT RTy.i32) = true ∧
    crateDeref (RTy.pinMutT RTy.selfRefT) = true ∧
    Pin.deref (Pin.mk (42 : Nat)) = 42 :=
  ⟨(c5_deref_unconditional (t := RTy.i32) (v := (42 : Nat))).2.1 (by decide),
   (c5_deref_unconditional (t := RTy.selfRefT) (v := (42 : Nat))).1,
   (c5_deref_unconditional (t := RTy.i32) (v := (42 : Nat))).2.2.1⟩

/-- C6: the reborrow/downgrade operations preserve the referent: the `Pin`
produced by `Pin::as_ref` or `PinMut::as_ref` and the `PinMut` produced by
`PinMut::as_mut` dereference to the same value as the original reference,
and the original reference value is left unchanged by the derivation. -/
theorem c6_reborrow_preserves_referent {α : Type} (p : Pin α) (m : PinMut α) :
    (Pin.as_ref p).deref = p.deref ∧
    (PinMut.as_ref m).deref = m.deref ∧
    (PinMut.as_mut m).deref = m.deref ∧
    Pin.as_ref p = p ∧
    PinMut.as_mut m = m :=
  ⟨rfl, rfl, rfl, rfl, rfl⟩

/-- C7 counterexample: the claim asserts `String` implements the mutable
stable-address capability, but the `impls!` block gives `String` only
`Own` and `StableDeref` — no `StableDerefMut` (and `src/mem.rs` likewise
restricts `StableDerefMut` to `Box` and `Vec`). -/
theorem c7_counterexample_string_not_stableDerefMut :
    stableDerefMut RTy.stringT = false :=
  rfl

/-- C7 (amended): the owning string/path buffer types implement `Own` and
`StableDeref` but not `StableDerefMut`; the reference-counted owners `Rc`
and `Arc` implement `StableDeref` and not `StableDerefMut`. -/
theorem c7_stable_capability_assignment (t : RTy) :
    own RTy.stringT = true ∧ stableDeref RTy.stringT = true ∧
    stableDerefMut RTy.stringT = false ∧
    own RTy.osStringT = true ∧ stableDeref RTy.osStringT = true ∧
    stableDerefMut RTy.osStringT = false ∧
    own RTy.cStringT = true ∧ stableDeref RTy.cStringT = true ∧
    stableDerefMut RTy.cStringT = false ∧
    own RTy.pathBufT = true ∧ stableDeref RTy.pathBufT = true ∧
    stableDerefMut RTy.pathBufT = false ∧
    stableDeref (RTy.rcT t) = true ∧ stableDerefMut (RTy.rcT t) = false ∧
    stableDeref (RTy.arcT t) = true ∧ stableDerefMut (RTy.arcT t) = false :=
  ⟨rfl, rfl, rfl, rfl, rfl, rfl, rfl, rfl, rfl, rfl, rfl, rfl, rfl, rfl, rfl, rfl⟩

/-- C8: every public safe operation is total: the heap reads succeed for
every in-bounds pointer (and Rust's allocator only produces in-bounds
pointers, as `Box.new`'s result shows), the constructors and derivations
are total functions, and in-place mutation never changes the heap's
shape. -/
theorem c8_operations_total {α : Type} (h : Heap α) (v : α) (b : Box α)
    (a : Anchor α) (hb : b.addr < h.length) (ha : a.ptr.addr < h.length) :
    (∃ x, Box.deref h b = some x) ∧
    (∃ x, Anchor.deref h a = some x) ∧
    (∃ q, Anchor.as_pin h a = some q) ∧
    (∃ x, PinMutH.deref h (Anchor.as_pin_mut a) = some x) ∧
    (Box.new h v).2.addr < (Box.new h v).1.length ∧
    (PinBox.new h v).2.inner.addr < (PinBox.new h v).1.length ∧
    (Anchor.boxed h v).2.targetAddr < (Anchor.boxed h v).1.length ∧
    PinBox.into_inner (PinBox.new h v).1 (PinBox.new h v).2 = some v ∧
    (Pin.new (pinned v)).deref = v ∧
    (PinMut.new (pinned v)).deref = v ∧
    (∀ f, (PinMutH.modify h (Anchor.as_pin_mut a) f).length = h.length) := by
  have hder : Box.deref h b = some (h.get ⟨b.addr, hb⟩) := List.getElem?_eq_getElem hb
  have hader : Anchor.deref h a = some (h.get ⟨a.ptr.addr, ha⟩) :=
    List.getElem?_eq_getElem ha
  have hpin : Anchor.as_pin h a = some (Pin.mk (h.get ⟨a.ptr.addr, ha⟩)) := by
    unfold Anchor.as_pin
    rw [hader]
    rfl
  have hmod : ∀ f, (PinMutH.modify h (Anchor.as_pin_mut a) f).length = h.length := by
    intro f
    rw [PinMutH.modify_found h (Anchor.as_pin_mut a) f (h.get ⟨a.ptr.addr, ha⟩)
        (List.getElem?_eq_getElem ha)]
    simp
  refine ⟨⟨_, hder⟩, ⟨_, hader⟩, ⟨_, hpin⟩, ⟨_, hader⟩, ?_, ?_, ?_, ?_, rfl, rfl, hmod⟩
  · simp [Box.new]
  · simp [PinBox.new, Box.new]
  · simp [Anchor.boxed, Anchor.new, Anchor.targetAddr, Box.new]
  · show (h ++ [v])[h.length]? = some v
    exact List.getElem?_concat_length h v

/-- Witness for C8 on a one-cell heap with a valid box and anchor. -/
theorem c8_operations_total_witness :
    (∃ x, Box.deref [7] (Box.mk 0) = some x) ∧
    PinBox.into_inner (PinBox.new ([7] : Heap Nat) 5).1
      (PinBox.new ([7] : Heap Nat) 5).2 = some 5 :=
  ⟨(c8_operations_total [7] 5 (Box.mk 0) (Anchor.new (Box.mk 0))
      (by decide) (by decide)).1,
   (c8_operations_total [7] 5 (Box.mk 0) (Anchor.new (Box.mk 0))
      (by decide) (by decide)).2.2.2.2.2.2.2.1⟩

/-- C9: heap-pin round trips: `PinBox::new(v).into_inner()` returns `v`,
and `Anchor::new(p)` alters neither the pointer's target value (its
`Deref` agrees with `p`'s) nor the target's address. -/
theorem c9_heap_pin_roundtrip {α : Type} (h : Heap α) (v : α) (b : Box α) :
    PinBox.into_inner (PinBox.new h v).1 (PinBox.new h v).2 = some v ∧
    Anchor.deref h (Anchor.new b) = Box.deref h b ∧
    (Anchor.new b).targetAddr = b.addr := by
  refine ⟨?_, rfl, rfl⟩
  show (h ++ [v])[h.length]? = some v
  exact List.getElem?_concat_length h v

/-- C10: `PinBox<T>` is `MovePinned` for every sized `T`, including the
opt-out type (the explicit `unsafe impl<T> MovePinned for PinBox<T>`
with its implicit `T: Sized` bound), while `Anchor<T>` is `MovePinned`
exactly under its impl's bound `T: StableDeref + Own + MovePinned` — in
particular only when the pointer type `T` is itself `MovePinned`. -/
theorem c10_wrapper_movability (t : RTy) :
    (sized t = true → movePinned (RTy.pinBoxT t) = true) ∧
    movePinned (RTy.anchorT t) = (stableDeref t && own t && movePinned t) ∧
    (movePinned (RTy.anchorT t) = true → movePinned t = true) := by
  refine ⟨fun hs => hs, rfl, ?_⟩
  intro hm
  have hm' : (stableDeref t && own t && movePinned t) = true := hm
  exact ((Bool.and_eq_true _ _).mp hm').2

/-- Witness for C10: `PinBox` of the (sized) opt-out type is still
movable, and the anchor implication applied at the movable pointer type
`Box<i32>`. -/
theorem c10_wrapper_movability_witness :
    movePinned (RTy.pinBoxT RTy.selfRefT) = true ∧
    movePinned (RTy.boxT RTy.i32) = true :=
  ⟨(c10_wrapper_movability RTy.selfRefT).1 (by decide),
   (c10_wrapper_movability (RTy.boxT RTy.i32)).2.2 (by decide)⟩

end PinApi
